import Mathlib

/-!
Shallow embedding of the `migrator` Go package (schema-migration engine).

The store (`*sql.DB`) is modelled as an explicit state:
  * `ledger`  — the rows of the `schema_migrations` table;
  * `log`     — the sequence of migration SQL statements actually executed
                (committed side effects on the schema);
  * `txCount` — how many transactions have been opened (`BeginTx` calls).

Statement execution may fail; which SQL strings fail is an input
`fail : String → Bool` of each operation.  A transaction is modelled by
running the loop on a copy of the state and either committing it (success)
or discarding it (any error ⇒ `tx.Rollback()`), which is exactly the
`defer`/commit structure of `executeMigrationBatch` and `executeRollback`.

Simplifications visible in the model (each noted at its definition):
ledger bootstrap (`createMigrationTable`) always succeeds, `BeginTx` always
succeeds, a ledger `INSERT` fails exactly on a primary-key conflict, a
ledger `DELETE` always succeeds, and `applied_at` timestamps are outside
the model.
-/

namespace Migrator

/-- The data of the Go `Migration` interface: `ID()`, `Description()`,
`Up()` (forward statements), `Down()` (reverse statements). -/
structure Migration where
  id : String
  description : String
  up : List String
  down : List String
deriving DecidableEq, Repr

/-- A ledger row (`MigrationStatus` in the source).  The `applied_at`
timestamp is assigned by the store and plays no role in any claim, so it
is not modelled. -/
structure MigrationStatus where
  id : String
  description : String
  batch : Int
deriving DecidableEq, Repr

/-- The observable state of the store. -/
structure DB where
  ledger : List MigrationStatus
  log : List String
  txCount : Nat
deriving DecidableEq, Repr

/-- The error kinds of the package (`errors.go`).  Go wraps causes with
`errors.Join`; the model keeps the innermost dedicated kind. -/
inductive MigErr where
  | migrationFailed
  | failedToCreateSchemaMigrationsTable
  | failedToCreateSchemaMigrationsIndex
  | failedToGetAppliedMigrations
  | failedToBeginTransaction
  | noMigrationsToRollback
  | failedToExecuteQuery
deriving DecidableEq, Repr

/-- Go `strings.TrimSpace`, embedded structurally: drop whitespace from
both ends.  (Go trims Unicode white space; `Char.isWhitespace` plays that
role here.) -/
def TrimSpace (s : String) : String :=
  ⟨((s.toList.dropWhile Char.isWhitespace).reverse.dropWhile Char.isWhitespace).reverse⟩

/-- Go `strings.HasPrefix`, embedded structurally on the char lists. -/
def HasPrefixStr (s pre : String) : Bool :=
  pre.toList.isPrefixOf s.toList

/-- Go string order: byte-lexicographic, which for UTF-8 agrees with the
lexicographic order on the char lists. -/
def strLe (a b : String) : Prop := a.data ≤ b.data

def strLt (a b : String) : Prop := a.data < b.data

/-- Ascending `(batch, id)` order: the `ORDER BY batch, id` of
`getAppliedMigrations`. -/
def rowAsc (a b : MigrationStatus) : Prop :=
  a.batch < b.batch ∨ (a.batch = b.batch ∧ strLe a.id b.id)

instance : DecidableRel rowAsc := fun a b =>
  inferInstanceAs (Decidable (a.batch < b.batch ∨ (a.batch = b.batch ∧ a.id.data ≤ b.id.data)))

/-- Descending `(batch, id)` order: the sort of `buildRollbackList`
(`applied[i].Batch > applied[j].Batch || (equal batches && applied[i].ID >
applied[j].ID)`). -/
def rowDesc (a b : MigrationStatus) : Prop :=
  b.batch < a.batch ∨ (a.batch = b.batch ∧ strLe b.id a.id)

instance : DecidableRel rowDesc := fun a b =>
  inferInstanceAs (Decidable (b.batch < a.batch ∨ (a.batch = b.batch ∧ b.id.data ≤ a.id.data)))

/-- Ascending id order on migrations: the sort in `Up`
(`migrations[i].ID() < migrations[j].ID()`). -/
def migAsc (a b : Migration) : Prop := strLe a.id b.id

instance : DecidableRel migAsc := fun a b =>
  inferInstanceAs (Decidable (a.id.data ≤ b.id.data))

/-- `getAppliedMigrations`: bootstraps the ledger (modelled as always
succeeding) and reads all rows `ORDER BY batch, id`. -/
def getAppliedMigrations (db : DB) : List MigrationStatus :=
  List.insertionSort rowAsc db.ledger

/-- `getNextBatchNumber`: one plus the largest batch among the applied
rows (`maxBatch` starts at `0`). -/
def getNextBatchNumber (applied : List MigrationStatus) : Int :=
  (applied.foldl (fun mx r => if r.batch > mx then r.batch else mx) 0) + 1

/-- The ledger row inserted for a migration applied in batch `batch`. -/
def mkRow (mig : Migration) (batch : Int) : MigrationStatus :=
  ⟨mig.id, mig.description, batch⟩

/-- The forward-statement loop of `executeMigrationUp`: skip
blank/whitespace-only entries, execute the rest, abort on the first
failure. -/
def execUpQueries (fail : String → Bool) : DB → List String → Except MigErr DB
  | tx, [] => .ok tx
  | tx, q :: qs =>
    if TrimSpace q == "" then execUpQueries fail tx qs
    else if fail q then .error .failedToExecuteQuery
    else execUpQueries fail { tx with log := tx.log ++ [q] } qs

/-- `executeMigrationUp`: run the forward statements, then `INSERT` the
ledger row.  The insert fails exactly on a primary-key conflict (the id is
already present in the transaction's view of the ledger); Go reports that
joined under `ErrMigrationFailed` by the caller. -/
def executeMigrationUp (fail : String → Bool) (tx : DB) (mig : Migration)
    (batch : Int) : Except MigErr DB :=
  match execUpQueries fail tx mig.up with
  | .error e => .error e
  | .ok tx2 =>
    if tx2.ledger.any (fun r => r.id == mig.id) then .error .migrationFailed
    else .ok { tx2 with ledger := tx2.ledger ++ [mkRow mig batch] }

/-- The loop of `executeMigrationBatch` over the new migrations. -/
def runUpMigrations (fail : String → Bool) (batch : Int) :
    DB → List Migration → Except MigErr DB
  | tx, [] => .ok tx
  | tx, m :: ms =>
    match executeMigrationUp fail tx m batch with
    | .error e => .error e
    | .ok tx2 => runUpMigrations fail batch tx2 ms

/-- `executeMigrationBatch`: open one transaction (`BeginTx` is modelled
as always succeeding), run every migration in it, commit on success; any
error rolls the transaction back, leaving ledger and log as before. -/
def executeMigrationBatch (fail : String → Bool) (db : DB)
    (migrations : List Migration) (batch : Int) : DB × Except MigErr Unit :=
  match runUpMigrations fail batch { db with txCount := db.txCount + 1 } migrations with
  | .ok tx => (tx, .ok ())
  | .error e => ({ db with txCount := db.txCount + 1 }, .error e)

/-- The candidate list of `Up`: registered migrations sorted ascending by
id, minus those whose id is already applied. -/
def newMigrationsOf (db : DB) (migrations : List Migration) : List Migration :=
  (List.insertionSort migAsc migrations).filter
    (fun m => !((getAppliedMigrations db).any (fun r => r.id == m.id)))

/-- `Up`: diff the registered set against the ledger; if nothing is new,
succeed without opening a transaction; otherwise execute the new
migrations as one batch with the next batch number. -/
def Up (fail : String → Bool) (db : DB) (migrations : List Migration) :
    DB × Except MigErr Unit :=
  if (newMigrationsOf db migrations).isEmpty then (db, .ok ())
  else
    executeMigrationBatch fail db (newMigrationsOf db migrations)
      (getNextBatchNumber (getAppliedMigrations db))

/-- `buildMigrationMap` as a lookup function: a Go map written in
registration order, so a later registration with the same id overwrites an
earlier one — the last matching element wins. -/
def buildMigrationMap (migrations : List Migration) (id : String) :
    Option Migration :=
  migrations.reverse.find? (fun m => m.id == id)

/-- `buildRollbackList`: sort the applied rows descending by
`(batch, id)`, clamp `steps`, and take that prefix. -/
def buildRollbackList (applied : List MigrationStatus) (steps : Int) :
    List MigrationStatus :=
  (List.insertionSort rowDesc applied).take
    (if steps ≤ 0 ∨ (applied.length : Int) < steps then applied.length
     else steps.toNat)

/-- The reverse-statement loop of `rollbackSingleMigration`: skip entries
that trim to `""` or whose trimmed text starts with `"--"`, execute the
rest, abort on the first failure (`ErrMigrationFailed`). -/
def execDownQueries (fail : String → Bool) : DB → List String → Except MigErr DB
  | tx, [] => .ok tx
  | tx, q :: qs =>
    if TrimSpace q == "" || HasPrefixStr (TrimSpace q) "--" then execDownQueries fail tx qs
    else if fail q then .error .migrationFailed
    else execDownQueries fail { tx with log := tx.log ++ [q] } qs

/-- `rollbackSingleMigration`: if the row's id resolves to a registered
migration, run its reverse statements; either way `DELETE` the ledger row
(the delete is modelled as always succeeding). -/
def rollbackSingleMigration (fail : String → Bool) (tx : DB)
    (migrationStatus : MigrationStatus) (migrationMap : String → Option Migration) :
    Except MigErr DB :=
  match (match migrationMap migrationStatus.id with
         | some migration => execDownQueries fail tx migration.down
         | none => .ok tx) with
  | .error e => .error e
  | .ok tx2 =>
    .ok { tx2 with ledger := tx2.ledger.filter (fun r => !(r.id == migrationStatus.id)) }

/-- The loop of `executeRollback` over the selected rows. -/
def runRollback (fail : String → Bool) (migrationMap : String → Option Migration) :
    DB → List MigrationStatus → Except MigErr DB
  | tx, [] => .ok tx
  | tx, row :: rest =>
    match rollbackSingleMigration fail tx row migrationMap with
    | .error e => .error e
    | .ok tx2 => runRollback fail migrationMap tx2 rest

/-- `executeRollback`: one transaction around the whole rollback list;
commit on success, roll back on the first error. -/
def executeRollback (fail : String → Bool) (db : DB)
    (rollbackList : List MigrationStatus)
    (migrationMap : String → Option Migration) : DB × Except MigErr Unit :=
  match runRollback fail migrationMap { db with txCount := db.txCount + 1 } rollbackList with
  | .ok tx => (tx, .ok ())
  | .error e => ({ db with txCount := db.txCount + 1 }, .error e)

/-- `Down(steps)`: read the applied rows; if none, fail with
`ErrNoMigrationsToRollback` before any transaction; otherwise roll back
the selected rows in one transaction. -/
def Down (fail : String → Bool) (db : DB) (migrations : List Migration)
    (steps : Int) : DB × Except MigErr Unit :=
  if (getAppliedMigrations db).isEmpty then (db, .error .noMigrationsToRollback)
  else
    executeRollback fail db (buildRollbackList (getAppliedMigrations db) steps)
      (buildMigrationMap migrations)

/-- The reverse statements actually executed for one ledger row: those of
the registered migration that survive the reverse-side filter, or nothing
when the id no longer resolves. -/
def rowDownStatements (migrationMap : String → Option Migration)
    (row : MigrationStatus) : List String :=
  match migrationMap row.id with
  | some migration =>
    migration.down.filter (fun q => !(TrimSpace q == "" || HasPrefixStr (TrimSpace q) "--"))
  | none => []

/-! ### Builder (`migration.go`) -/

/-- The concrete migration value built by the fluent builder
(`baseMigration` in the source). -/
structure baseMigration where
  id : String
  description : String
  upQueries : List String
  downQueries : List String
deriving DecidableEq, Repr

/-- `AddUp`: append one forward statement. -/
def baseMigration.AddUp (m : baseMigration) (query : String) : baseMigration :=
  { m with upQueries := m.upQueries ++ [query] }

/-- `AddDown`: prepend one reverse statement
(`append([]string{query}, m.downQueries...)`). -/
def baseMigration.AddDown (m : baseMigration) (query : String) : baseMigration :=
  { m with downQueries := query :: m.downQueries }

/-- The fluent builder, wrapping the migration under construction. -/
structure MigrationBuilder where
  migration : baseMigration
deriving DecidableEq, Repr

/-- `CreateMigration`: a builder over an empty migration. -/
def CreateMigration (id description : String) : MigrationBuilder :=
  ⟨⟨id, description, [], []⟩⟩

/-- Go `strings.Fields` on an exploded string: split around runs of
whitespace, keeping no empty fields.  `cur` is the current word, reversed. -/
def fieldsAux : List Char → List Char → List (List Char)
  | [], cur => if cur.isEmpty then [] else [cur.reverse]
  | c :: cs, cur =>
    if c.isWhitespace then
      if cur.isEmpty then fieldsAux cs []
      else cur.reverse :: fieldsAux cs []
    else fieldsAux cs (c :: cur)

/-- Go `strings.Fields`. -/
def fields (s : String) : List String :=
  (fieldsAux s.toList []).map fun w => ⟨w⟩

def MigrationBuilder.CreateTable (b : MigrationBuilder) (tableName : String)
    (columns : List String) : MigrationBuilder :=
  ⟨(b.migration.AddUp ("CREATE TABLE IF NOT EXISTS " ++ tableName ++ " (\n    "
      ++ String.intercalate ",\n    " columns ++ "\n);")).AddDown
    ("DROP TABLE IF EXISTS " ++ tableName ++ ";")⟩

def MigrationBuilder.DropTable (b : MigrationBuilder) (tableName : String) :
    MigrationBuilder :=
  ⟨(b.migration.AddUp ("DROP TABLE IF EXISTS " ++ tableName ++ ";")).AddDown
    ("-- Cannot restore dropped table " ++ tableName)⟩

/-- `AddColumn` derives the reverse statement's column name as
`strings.Fields(columnDef)[0]`; indexing an empty slice panics in Go, so
the model returns `none` exactly there. -/
def MigrationBuilder.AddColumn (b : MigrationBuilder)
    (tableName columnDef : String) : Option MigrationBuilder :=
  match fields columnDef with
  | [] => none
  | columnName :: _ =>
    some ⟨(b.migration.AddUp ("ALTER TABLE " ++ tableName ++ " ADD COLUMN "
        ++ columnDef ++ ";")).AddDown
      ("ALTER TABLE " ++ tableName ++ " DROP COLUMN " ++ columnName ++ ";")⟩

def MigrationBuilder.DropColumn (b : MigrationBuilder)
    (tableName columnName : String) : MigrationBuilder :=
  ⟨(b.migration.AddUp ("ALTER TABLE " ++ tableName ++ " DROP COLUMN "
      ++ columnName ++ ";")).AddDown
    ("-- Cannot restore dropped column " ++ tableName ++ "." ++ columnName
      ++ " without definition")⟩

def MigrationBuilder.RenameColumn (b : MigrationBuilder)
    (tableName oldName newName : String) : MigrationBuilder :=
  ⟨(b.migration.AddUp ("ALTER TABLE " ++ tableName ++ " RENAME COLUMN "
      ++ oldName ++ " TO " ++ newName ++ ";")).AddDown
    ("ALTER TABLE " ++ tableName ++ " RENAME COLUMN " ++ newName ++ " TO "
      ++ oldName ++ ";")⟩

def MigrationBuilder.ChangeColumn (b : MigrationBuilder)
    (tableName columnName newDefinition : String) : MigrationBuilder :=
  ⟨(b.migration.AddUp ("ALTER TABLE " ++ tableName ++ " ALTER COLUMN "
      ++ columnName ++ " " ++ newDefinition ++ ";")).AddDown
    ("-- Cannot reverse column change for " ++ tableName ++ "." ++ columnName)⟩

def MigrationBuilder.CreateIndex (b : MigrationBuilder)
    (indexName tableName : String) (columns : List String) : MigrationBuilder :=
  ⟨(b.migration.AddUp ("CREATE INDEX " ++ indexName ++ " ON " ++ tableName
      ++ " (" ++ String.intercalate ", " columns ++ ");")).AddDown
    ("DROP INDEX IF EXISTS " ++ indexName ++ ";")⟩

def MigrationBuilder.CreateUniqueIndex (b : MigrationBuilder)
    (indexName tableName : String) (columns : List String) : MigrationBuilder :=
  ⟨(b.migration.AddUp ("CREATE UNIQUE INDEX " ++ indexName ++ " ON " ++ tableName
      ++ " (" ++ String.intercalate ", " columns ++ ");")).AddDown
    ("DROP INDEX IF EXISTS " ++ indexName ++ ";")⟩

def MigrationBuilder.DropIndex (b : MigrationBuilder) (indexName : String) :
    MigrationBuilder :=
  ⟨(b.migration.AddUp ("DROP INDEX IF EXISTS " ++ indexName ++ ";")).AddDown
    ("-- Cannot restore dropped index " ++ indexName ++ " without definition")⟩

def MigrationBuilder.AddForeignKey (b : MigrationBuilder)
    (tableName columnName refTable refColumn : String) : MigrationBuilder :=
  let constraintName := "fk_" ++ tableName ++ "_" ++ columnName
  ⟨(b.migration.AddUp ("ALTER TABLE " ++ tableName ++ " ADD CONSTRAINT "
      ++ constraintName ++ " FOREIGN KEY (" ++ columnName ++ ") REFERENCES "
      ++ refTable ++ "(" ++ refColumn ++ ");")).AddDown
    ("ALTER TABLE " ++ tableName ++ " DROP CONSTRAINT IF EXISTS "
      ++ constraintName ++ ";")⟩

def MigrationBuilder.AddForeignKeyWithName (b : MigrationBuilder)
    (tableName constraintName columnName refTable refColumn : String) :
    MigrationBuilder :=
  ⟨(b.migration.AddUp ("ALTER TABLE " ++ tableName ++ " ADD CONSTRAINT "
      ++ constraintName ++ " FOREIGN KEY (" ++ columnName ++ ") REFERENCES "
      ++ refTable ++ "(" ++ refColumn ++ ");")).AddDown
    ("ALTER TABLE " ++ tableName ++ " DROP CONSTRAINT IF EXISTS "
      ++ constraintName ++ ";")⟩

def MigrationBuilder.DropForeignKey (b : MigrationBuilder)
    (tableName constraintName : String) : MigrationBuilder :=
  ⟨(b.migration.AddUp ("ALTER TABLE " ++ tableName ++ " DROP CONSTRAINT IF EXISTS "
      ++ constraintName ++ ";")).AddDown
    ("-- Cannot restore dropped foreign key " ++ constraintName)⟩

def MigrationBuilder.AddPrimaryKey (b : MigrationBuilder)
    (tableName constraintName : String) (columns : List String) :
    MigrationBuilder :=
  ⟨(b.migration.AddUp ("ALTER TABLE " ++ tableName ++ " ADD CONSTRAINT "
      ++ constraintName ++ " PRIMARY KEY (" ++ String.intercalate ", " columns
      ++ ");")).AddDown
    ("ALTER TABLE " ++ tableName ++ " DROP CONSTRAINT IF EXISTS "
      ++ constraintName ++ ";")⟩

def MigrationBuilder.AddCheck (b : MigrationBuilder)
    (tableName constraintName condition : String) : MigrationBuilder :=
  ⟨(b.migration.AddUp ("ALTER TABLE " ++ tableName ++ " ADD CONSTRAINT "
      ++ constraintName ++ " CHECK (" ++ condition ++ ");")).AddDown
    ("ALTER TABLE " ++ tableName ++ " DROP CONSTRAINT IF EXISTS "
      ++ constraintName ++ ";")⟩

/-- `RawUp`: only appends a forward statement. -/
def MigrationBuilder.RawUp (b : MigrationBuilder) (query : String) :
    MigrationBuilder :=
  ⟨b.migration.AddUp query⟩

/-- `RawDown`: only prepends a reverse statement. -/
def MigrationBuilder.RawDown (b : MigrationBuilder) (query : String) :
    MigrationBuilder :=
  ⟨b.migration.AddDown query⟩

/-- `Raw`: appends one forward and prepends one reverse statement. -/
def MigrationBuilder.Raw (b : MigrationBuilder) (upQuery downQuery : String) :
    MigrationBuilder :=
  ⟨(b.migration.AddUp upQuery).AddDown downQuery⟩

/-- `Build`: the finished migration, viewed through the `Migration`
interface (`ID/Description/Up/Down` accessors of `baseMigration`). -/
def MigrationBuilder.Build (b : MigrationBuilder) : Migration :=
  ⟨b.migration.id, b.migration.description, b.migration.upQueries,
   b.migration.downQueries⟩

/-! ### Characterization of the apply path -/

/-- On success, the forward-statement loop appends to the log exactly the
non-blank entries, in order, and touches nothing else. -/
theorem execUpQueries_ok {fail : String → Bool} {qs : List String} {tx tx2 : DB}
    (h : execUpQueries fail tx qs = .ok tx2) :
    tx2 = { tx with log := tx.log ++ qs.filter (fun q => !(TrimSpace q == "")) } := by
  induction qs generalizing tx with
  | nil =>
    simp only [execUpQueries, Except.ok.injEq] at h
    simp [← h]
  | cons q qs ih =>
    rw [execUpQueries] at h
    by_cases hb : (TrimSpace q == "") = true
    · rw [if_pos hb] at h
      rw [ih h]
      simp [List.filter_cons, hb]
    · rw [if_neg hb] at h
      by_cases hf : fail q = true
      · rw [if_pos hf] at h
        exact absurd h (by simp)
      · rw [if_neg hf] at h
        rw [ih h]
        simp [List.filter_cons, hb]

/-- On success, `executeMigrationUp` appends the filtered forward
statements to the log and the new ledger row to the ledger. -/
theorem executeMigrationUp_ok {fail : String → Bool} {tx tx2 : DB}
    {m : Migration} {batch : Int}
    (h : executeMigrationUp fail tx m batch = .ok tx2) :
    tx2 = { tx with
            ledger := tx.ledger ++ [mkRow m batch],
            log := tx.log ++ m.up.filter (fun q => !(TrimSpace q == "")) } := by
  unfold executeMigrationUp at h
  split at h
  next e heq => exact absurd h (by simp)
  next tx1 heq =>
    split at h
    next hc => exact absurd h (by simp)
    next hc =>
      simp only [Except.ok.injEq] at h
      rw [← h, execUpQueries_ok heq]

/-- On success, the batch loop appends one ledger row per migration and
the filtered forward statements of each, in list order. -/
theorem runUpMigrations_ok {fail : String → Bool} {batch : Int}
    {ms : List Migration} {tx tx2 : DB}
    (h : runUpMigrations fail batch tx ms = .ok tx2) :
    tx2 = { tx with
            ledger := tx.ledger ++ ms.map (fun m => mkRow m batch),
            log := tx.log ++
              ms.flatMap (fun m => m.up.filter (fun q => !(TrimSpace q == ""))) } := by
  induction ms generalizing tx with
  | nil =>
    simp only [runUpMigrations, Except.ok.injEq] at h
    simp [← h]
  | cons m ms ih =>
    rw [runUpMigrations] at h
    cases hm : executeMigrationUp fail tx m batch with
    | error e => rw [hm] at h; exact absurd h (by simp)
    | ok tx1 =>
      rw [hm] at h
      rw [ih h, executeMigrationUp_ok hm]
      simp

/-- On success, `executeMigrationBatch` commits exactly the batch: one
row per migration plus the filtered forward statements, inside one new
transaction. -/
theorem executeMigrationBatch_ok {fail : String → Bool} {db : DB}
    {ms : List Migration} {batch : Int}
    (h : (executeMigrationBatch fail db ms batch).2 = .ok ()) :
    (executeMigrationBatch fail db ms batch).1 =
      { ledger := db.ledger ++ ms.map (fun m => mkRow m batch),
        log := db.log ++
          ms.flatMap (fun m => m.up.filter (fun q => !(TrimSpace q == ""))),
        txCount := db.txCount + 1 } := by
  unfold executeMigrationBatch at h ⊢
  split at h
  next tx heq =>
    simp only [heq]
    rw [runUpMigrations_ok heq]
  next e heq => simp at h

/-- On error, `executeMigrationBatch` rolls the transaction back: ledger
and log are untouched. -/
theorem executeMigrationBatch_error {fail : String → Bool} {db : DB}
    {ms : List Migration} {batch : Int} {e : MigErr}
    (h : (executeMigrationBatch fail db ms batch).2 = .error e) :
    (executeMigrationBatch fail db ms batch).1 =
      { db with txCount := db.txCount + 1 } := by
  unfold executeMigrationBatch at h ⊢
  split at h
  next tx heq => simp at h
  next e2 heq => simp only [heq]

/-- On success, `Up` appends exactly the new migrations' rows (all with
the next batch number) and their filtered forward statements;
the no-op branch appends nothing. -/
theorem up_ok_state {fail : String → Bool} {db : DB} {migs : List Migration}
    (h : (Up fail db migs).2 = .ok ()) :
    (Up fail db migs).1.ledger = db.ledger ++
      (newMigrationsOf db migs).map
        (fun m => mkRow m (getNextBatchNumber (getAppliedMigrations db)))
    ∧ (Up fail db migs).1.log = db.log ++
      (newMigrationsOf db migs).flatMap
        (fun m => m.up.filter (fun q => !(TrimSpace q == ""))) := by
  unfold Up at h ⊢
  by_cases he : (newMigrationsOf db migs).isEmpty = true
  · rw [if_pos he] at h ⊢
    rw [List.isEmpty_iff.mp he]
    simp
  · rw [if_neg he] at h ⊢
    rw [executeMigrationBatch_ok h]
    exact ⟨rfl, rfl⟩

/-- On error, `Up` leaves ledger and log untouched (the transaction was
rolled back). -/
theorem up_error_state {fail : String → Bool} {db : DB} {migs : List Migration}
    {e : MigErr} (h : (Up fail db migs).2 = .error e) :
    (Up fail db migs).1.ledger = db.ledger ∧ (Up fail db migs).1.log = db.log := by
  unfold Up at h ⊢
  by_cases he : (newMigrationsOf db migs).isEmpty = true
  · rw [if_pos he] at h; exact absurd h (by simp)
  · rw [if_neg he] at h ⊢
    rw [executeMigrationBatch_error h]
    exact ⟨rfl, rfl⟩

/-! ### Concrete fixtures used by the witnesses -/

def failNone : String → Bool := fun _ => false

def failBoom : String → Bool := fun q => q == "BOOM"

def db0 : DB := ⟨[], [], 0⟩

def migA : Migration := ⟨"001", "create a", ["CREATE TABLE a;"], ["DROP TABLE a;"]⟩

def migB : Migration := ⟨"002", "create b", ["CREATE TABLE b;"], ["DROP TABLE b;"]⟩

def migBad : Migration := ⟨"003", "bad", ["BOOM"], []⟩

/-- Claim C1: `Up` is atomic at batch granularity — on any error nothing
from the batch persists (no forward statement's effect and no ledger row);
on success every migration of the batch has executed its non-blank forward
statements and owns a ledger row. -/
theorem up_atomic (fail : String → Bool) (db : DB) (migs : List Migration) :
    (∀ e : MigErr, (Up fail db migs).2 = .error e →
      (Up fail db migs).1.ledger = db.ledger ∧ (Up fail db migs).1.log = db.log)
    ∧ ((Up fail db migs).2 = .ok () →
      ∀ m ∈ newMigrationsOf db migs,
        mkRow m (getNextBatchNumber (getAppliedMigrations db)) ∈ (Up fail db migs).1.ledger
        ∧ ∀ q ∈ m.up, (TrimSpace q == "") = false → q ∈ (Up fail db migs).1.log) := by
  constructor
  · intro e he
    exact up_error_state he
  · intro h m hm
    obtain ⟨hled, hlog⟩ := up_ok_state h
    constructor
    · rw [hled]
      exact List.mem_append_right _ (List.mem_map_of_mem _ hm)
    · intro q hq hnb
      rw [hlog]
      refine List.mem_append_right _ (List.mem_flatMap.mpr ⟨m, hm, ?_⟩)
      exact List.mem_filter.mpr ⟨hq, by simp [hnb]⟩

theorem up_atomic_witness :
    ((Up failBoom db0 [migBad]).2 = .error .failedToExecuteQuery
      ∧ (Up failBoom db0 [migBad]).1.ledger = db0.ledger)
    ∧ mkRow migA 1 ∈ (Up failNone db0 [migA]).1.ledger :=
  ⟨⟨rfl, ((up_atomic failBoom db0 [migBad]).1 .failedToExecuteQuery rfl).1⟩,
   ((up_atomic failNone db0 [migA]).2 rfl migA (by decide)).1⟩

/-! ### Idempotence -/

theorem getAppliedMigrations_perm (db : DB) :
    (getAppliedMigrations db).Perm db.ledger :=
  List.perm_insertionSort rowAsc db.ledger

/-- Membership tests against the read-back applied rows agree with tests
against the raw ledger. -/
theorem any_applied_eq (db : DB) (s : String) :
    ((getAppliedMigrations db).any (fun r => r.id == s))
      = (db.ledger.any (fun r => r.id == s)) := by
  cases hq : db.ledger.any (fun r => r.id == s) with
  | true =>
    obtain ⟨r, hr, hp⟩ := List.any_eq_true.mp hq
    exact List.any_eq_true.mpr ⟨r, (getAppliedMigrations_perm db).mem_iff.mpr hr, hp⟩
  | false =>
    rw [List.any_eq_false] at hq ⊢
    intro r hr
    exact hq r ((getAppliedMigrations_perm db).mem_iff.mp hr)

/-- Whenever every registered identifier is already applied, `Up` is a
no-op: it succeeds and returns the store untouched, opening no
transaction. -/
theorem up_noop_of_applied (fail : String → Bool) (db : DB)
    (migs : List Migration)
    (hall : ∀ m ∈ migs, (db.ledger.any (fun r => r.id == m.id)) = true) :
    Up fail db migs = (db, .ok ()) := by
  have hempty : newMigrationsOf db migs = [] := by
    unfold newMigrationsOf
    rw [List.filter_eq_nil_iff]
    intro m hm
    have hm0 : m ∈ migs := (List.perm_insertionSort migAsc migs).mem_iff.mp hm
    simp [any_applied_eq, hall m hm0]
  simp [Up, hempty]

/-- Claim C2: `Up` is idempotent — once an `Up` call has succeeded, a
second `Up` with the same registered set returns success and leaves the
store state (ledger, log, transaction count) exactly as it was, taking the
no-transaction no-op branch; in general, whenever every registered
identifier is already applied, `Up` is a no-op. -/
theorem up_idempotent (fail fail2 : String → Bool) (db : DB)
    (migs : List Migration) (h : (Up fail db migs).2 = .ok ()) :
    Up fail2 (Up fail db migs).1 migs = ((Up fail db migs).1, .ok ())
    ∧ ∀ db2 : DB, (∀ m ∈ migs, (db2.ledger.any (fun r => r.id == m.id)) = true) →
        Up fail2 db2 migs = (db2, .ok ()) := by
  have hled := (up_ok_state h).1
  refine ⟨?_, fun db2 hall => up_noop_of_applied fail2 db2 migs hall⟩
  refine up_noop_of_applied fail2 _ migs ?_
  intro m hm0
  rw [hled, List.any_append]
  cases hq : db.ledger.any (fun r => r.id == m.id) with
  | true => simp [hq]
  | false =>
    have hm : m ∈ List.insertionSort migAsc migs :=
      (List.perm_insertionSort migAsc migs).mem_iff.mpr hm0
    have hm2 : m ∈ newMigrationsOf db migs := by
      unfold newMigrationsOf
      exact List.mem_filter.mpr ⟨hm, by simp [any_applied_eq, hq]⟩
    have hrow := List.mem_map_of_mem
      (fun m => mkRow m (getNextBatchNumber (getAppliedMigrations db))) hm2
    simp only [hq, Bool.false_or]
    exact List.any_eq_true.mpr ⟨_, hrow, by simp [mkRow]⟩

theorem up_idempotent_witness :
    Up failNone (Up failNone db0 [migA]).1 [migA]
      = ((Up failNone db0 [migA]).1, .ok ()) :=
  (up_idempotent failNone failNone db0 [migA] rfl).1

/-! ### Apply ordering -/

instance : IsTotal Migration migAsc :=
  ⟨fun a b => le_total a.id.data b.id.data⟩

instance : IsTrans Migration migAsc :=
  ⟨fun _ _ _ hab hbc => le_trans hab hbc⟩

/-- Strict ascending id order; antisymmetric because it is irreflexive on
pairs related both ways. -/
def migLt (a b : Migration) : Prop := strLt a.id b.id

instance : IsAntisymm Migration migLt :=
  ⟨fun _ _ h1 h2 => (lt_asymm h1 h2).elim⟩

/-- Two sorted lists that are permutations of each other and whose ids are
pairwise distinct are equal: the sort result is independent of
registration order. -/
theorem sorted_mig_unique {l₁ l₂ : List Migration} (hp : l₁.Perm l₂)
    (hs₁ : List.Sorted migAsc l₁) (hs₂ : List.Sorted migAsc l₂)
    (hnd : (l₁.map Migration.id).Nodup) : l₁ = l₂ := by
  have hnd₂ : (l₂.map Migration.id).Nodup := ((hp.map Migration.id).nodup_iff).mp hnd
  have strict : ∀ {l : List Migration}, List.Sorted migAsc l →
      (l.map Migration.id).Nodup → List.Pairwise migLt l := by
    intro l hs hn
    have hne : l.Pairwise (fun a b => a.id ≠ b.id) := List.pairwise_map.mp hn
    refine (hs.and hne).imp ?_
    rintro a b ⟨hle, hneid⟩
    exact lt_of_le_of_ne hle (fun hdata => hneid (congrArg String.mk hdata))
  exact List.eq_of_perm_of_sorted hp (strict hs₁ hnd) (strict hs₂ hnd₂)

/-- Claim C3: `Up` executes the unapplied migrations in ascending
identifier order, independently of registration order: permuting the
registered list does not change the result, the candidate list is sorted
ascending by id, it consists exactly of the registered migrations whose id
is not yet in the ledger, and on success the executed statements are those
candidates' forward statements in that order. -/
theorem up_ordering (fail : String → Bool) (db : DB) (migs migs2 : List Migration)
    (hperm : migs.Perm migs2) (hnd : (migs.map Migration.id).Nodup) :
    Up fail db migs = Up fail db migs2
    ∧ List.Sorted migAsc (newMigrationsOf db migs)
    ∧ (newMigrationsOf db migs).Perm
        (migs.filter (fun m => !(db.ledger.any (fun r => r.id == m.id))))
    ∧ ((Up fail db migs).2 = .ok () →
        (Up fail db migs).1.log = db.log ++
          (newMigrationsOf db migs).flatMap
            (fun m => m.up.filter (fun q => !(TrimSpace q == "")))) := by
  have hsorteq : List.insertionSort migAsc migs = List.insertionSort migAsc migs2 := by
    refine sorted_mig_unique
      ((List.perm_insertionSort migAsc migs).trans
        (hperm.trans (List.perm_insertionSort migAsc migs2).symm))
      (List.sorted_insertionSort migAsc migs)
      (List.sorted_insertionSort migAsc migs2) ?_
    exact ((List.perm_insertionSort migAsc migs).map Migration.id).nodup_iff.mpr hnd
  refine ⟨?_, ?_, ?_, ?_⟩
  · simp only [Up, newMigrationsOf, hsorteq]
  · exact List.Pairwise.filter _ (List.sorted_insertionSort migAsc migs)
  · unfold newMigrationsOf
    rw [List.filter_congr (fun m _ => by rw [any_applied_eq])]
    exact List.Perm.filter _ (List.perm_insertionSort migAsc migs)
  · intro h
    exact (up_ok_state h).2

theorem up_ordering_witness :
    Up failNone db0 [migB, migA] = Up failNone db0 [migA, migB]
    ∧ List.Sorted migAsc (newMigrationsOf db0 [migB, migA]) :=
  ⟨(up_ordering failNone db0 [migB, migA] [migA, migB] (by decide) (by decide)).1,
   (up_ordering failNone db0 [migB, migA] [migA, migB] (by decide) (by decide)).2.1⟩

/-! ### Batch numbering -/

/-- The spec's "maximum batch number currently present in the Ledger"
(`0` when the Ledger is empty). -/
def ledgerMaxBatch (rows : List MigrationStatus) : Int :=
  rows.foldl (fun mx r => max mx r.batch) 0

/-- `getNextBatchNumber` over the read-back rows computes exactly one plus
the maximum batch present in the ledger. -/
theorem getNextBatchNumber_applied (db : DB) :
    getNextBatchNumber (getAppliedMigrations db) = ledgerMaxBatch db.ledger + 1 := by
  unfold getNextBatchNumber ledgerMaxBatch
  congr 1
  have hfun : ∀ (l : List MigrationStatus) (a : Int),
      l.foldl (fun mx r => if r.batch > mx then r.batch else mx) a
        = l.foldl (fun mx r => max mx r.batch) a := by
    intro l
    induction l with
    | nil => intro a; rfl
    | cons r rs ih =>
      intro a
      simp only [List.foldl_cons]
      rw [ih]
      congr 1
      rcases le_or_lt r.batch a with hc | hc
      · rw [if_neg (not_lt.mpr hc), max_eq_left hc]
      · rw [if_pos hc, max_eq_right hc.le]
  rw [hfun]
  exact (getAppliedMigrations_perm db).foldl_eq'
    (fun x _ y _ z => sup_right_comm z x.batch y.batch) 0

/-- Claim C4: every ledger row written by a successful `Up` call carries
the same batch number, equal to one plus the maximum batch number present
in the ledger before the call (so `1` on an empty ledger), regardless of
gaps left by earlier rollbacks; one row is written per applied
migration. -/
theorem up_batch_numbering (fail : String → Bool) (db : DB)
    (migs : List Migration) (h : (Up fail db migs).2 = .ok ()) :
    ∃ rows, (Up fail db migs).1.ledger = db.ledger ++ rows
      ∧ rows.length = (newMigrationsOf db migs).length
      ∧ ∀ r ∈ rows, r.batch = ledgerMaxBatch db.ledger + 1 := by
  refine ⟨_, (up_ok_state h).1, List.length_map _ _, ?_⟩
  intro r hr
  obtain ⟨m, _, rfl⟩ := List.mem_map.mp hr
  simp [mkRow, getNextBatchNumber_applied db]

/-- A ledger whose only batch is `5`: a gap below it, left by rollbacks. -/
def dbGap : DB := ⟨[⟨"001", "x", 5⟩], [], 0⟩

theorem up_batch_numbering_witness :
    ∃ rows, (Up failNone dbGap [migB]).1.ledger = dbGap.ledger ++ rows
      ∧ rows.length = (newMigrationsOf dbGap [migB]).length
      ∧ ∀ r ∈ rows, r.batch = ledgerMaxBatch dbGap.ledger + 1 :=
  up_batch_numbering failNone dbGap [migB] rfl

/-! ### Rollback path characterization -/

/-- On success, the reverse-statement loop appends to the log exactly the
entries that are neither blank nor comments, in order. -/
theorem execDownQueries_ok {fail : String → Bool} {qs : List String} {tx tx2 : DB}
    (h : execDownQueries fail tx qs = .ok tx2) :
    tx2 = { tx with log := tx.log ++ qs.filter (fun q => !(TrimSpace q == "" || HasPrefixStr (TrimSpace q) "--")) } := by
  induction qs generalizing tx with
  | nil =>
    simp only [execDownQueries, Except.ok.injEq] at h
    simp [← h]
  | cons q qs ih =>
    rw [execDownQueries] at h
    by_cases hb : (TrimSpace q == "" || HasPrefixStr (TrimSpace q) "--") = true
    · rw [if_pos hb] at h
      rw [ih h]
      simp only [List.filter_cons, hb]
      simp
    · rw [if_neg hb] at h
      by_cases hf : fail q = true
      · rw [if_pos hf] at h
        exact absurd h (by simp)
      · rw [if_neg hf] at h
        rw [ih h]
        have hor : (TrimSpace q == "" || HasPrefixStr (TrimSpace q) "--") = false := by
          cases hx : (TrimSpace q == "" || HasPrefixStr (TrimSpace q) "--")
          · rfl
          · exact absurd hx hb
        simp only [List.filter_cons, hor]
        simp

/-- On success, one rollback step appends the executed reverse statements
to the log and deletes the row's ledger entry — whether or not the id
resolved. -/
theorem rollbackSingleMigration_ok {fail : String → Bool} {tx tx2 : DB}
    {row : MigrationStatus} {mm : String → Option Migration}
    (h : rollbackSingleMigration fail tx row mm = .ok tx2) :
    tx2 = { tx with
            log := tx.log ++ rowDownStatements mm row,
            ledger := tx.ledger.filter (fun r => !(r.id == row.id)) } := by
  unfold rollbackSingleMigration at h
  split at h
  next e heq => exact absurd h (by simp)
  next tx1 heq =>
    simp only [Except.ok.injEq] at h
    split at heq
    next mig hmm =>
      rw [execDownQueries_ok heq] at h
      rw [← h]
      simp [rowDownStatements, hmm]
    next hmm =>
      simp only [Except.ok.injEq] at heq
      rw [← h, ← heq]
      simp [rowDownStatements, hmm]

/-- On success, the rollback loop appends all executed reverse statements
in rollback-list order. -/
theorem runRollback_ok_log {fail : String → Bool}
    {mm : String → Option Migration} {rows : List MigrationStatus} {tx tx2 : DB}
    (h : runRollback fail mm tx rows = .ok tx2) :
    tx2.log = tx.log ++ rows.flatMap (rowDownStatements mm) := by
  induction rows generalizing tx with
  | nil =>
    simp only [runRollback, Except.ok.injEq] at h
    simp [← h]
  | cons r rs ih =>
    rw [runRollback] at h
    split at h
    next e heq => exact absurd h (by simp)
    next tx1 heq =>
      rw [ih h, rollbackSingleMigration_ok heq]
      simp

/-- On success, `executeRollback` commits a log extended by the executed
reverse statements of the whole rollback list, in order. -/
theorem executeRollback_ok_log {fail : String → Bool} {db : DB}
    {rl : List MigrationStatus} {mm : String → Option Migration}
    (h : (executeRollback fail db rl mm).2 = .ok ()) :
    (executeRollback fail db rl mm).1.log = db.log ++ rl.flatMap (rowDownStatements mm) := by
  unfold executeRollback at h ⊢
  split at h
  next tx heq =>
    simp only [heq]
    simpa using runRollback_ok_log heq
  next e heq => simp at h

/-- On success, `Down` executes exactly the rollback list's reverse
statements, in list order. -/
theorem down_ok_log {fail : String → Bool} {db : DB} {migs : List Migration}
    {steps : Int} (h : (Down fail db migs steps).2 = .ok ()) :
    (Down fail db migs steps).1.log = db.log ++
      (buildRollbackList (getAppliedMigrations db) steps).flatMap
        (rowDownStatements (buildMigrationMap migs)) := by
  unfold Down at h ⊢
  by_cases he : (getAppliedMigrations db).isEmpty = true
  · rw [if_pos he] at h; exact absurd h (by simp)
  · rw [if_neg he] at h ⊢
    exact executeRollback_ok_log h

/-! ### Rollback ordering -/

instance : IsTotal MigrationStatus rowDesc :=
  ⟨fun a b => by
    rcases lt_trichotomy a.batch b.batch with hc | hc | hc
    · right; left; exact hc
    · rcases le_total b.id.data a.id.data with hi | hi
      · left; right; exact ⟨hc, hi⟩
      · right; right; exact ⟨hc.symm, hi⟩
    · left; left; exact hc⟩

instance : IsTrans MigrationStatus rowDesc :=
  ⟨fun a b c hab hbc => by
    rcases hab with h1 | ⟨e1, i1⟩ <;> rcases hbc with h2 | ⟨e2, i2⟩
    · left; exact lt_trans h2 h1
    · left; omega
    · left; omega
    · right; exact ⟨e1.trans e2, le_trans i2 i1⟩⟩

/-- Strict descending `(batch, id)` order. -/
def rowDescLt (a b : MigrationStatus) : Prop :=
  b.batch < a.batch ∨ (a.batch = b.batch ∧ strLt b.id a.id)

instance : IsAntisymm MigrationStatus rowDescLt :=
  ⟨fun a b h1 h2 => by
    rcases h1 with h1 | ⟨e1, i1⟩ <;> rcases h2 with h2 | ⟨e2, i2⟩
    · exact (lt_asymm h1 h2).elim
    · exact absurd h1 (by omega)
    · exact absurd h2 (by omega)
    · exact (lt_asymm i1 i2).elim⟩

/-- Descending-sorted lists of rows with pairwise distinct ids are unique
among permutations of one another. -/
theorem sorted_row_unique {l₁ l₂ : List MigrationStatus} (hp : l₁.Perm l₂)
    (hs₁ : List.Sorted rowDesc l₁) (hs₂ : List.Sorted rowDesc l₂)
    (hnd : (l₁.map MigrationStatus.id).Nodup) : l₁ = l₂ := by
  have hnd₂ : (l₂.map MigrationStatus.id).Nodup :=
    ((hp.map MigrationStatus.id).nodup_iff).mp hnd
  have strict : ∀ {l : List MigrationStatus}, List.Sorted rowDesc l →
      (l.map MigrationStatus.id).Nodup → List.Pairwise rowDescLt l := by
    intro l hs hn
    have hne : l.Pairwise (fun a b => a.id ≠ b.id) := List.pairwise_map.mp hn
    refine (hs.and hne).imp ?_
    rintro a b ⟨hd, hneid⟩
    rcases hd with hb | ⟨e, ile⟩
    · exact Or.inl hb
    · refine Or.inr ⟨e, lt_of_le_of_ne ile (fun hdata => ?_)⟩
      exact hneid (congrArg String.mk hdata).symm
  exact List.eq_of_perm_of_sorted hp (strict hs₁ hnd) (strict hs₂ hnd₂)

/-- Claim C5: with a non-empty ledger of pairwise-distinct ids, for any
list `l` that rearranges the applied rows in descending `(batch, id)`
order, `Down(steps)` selects exactly the first `k` rows of `l` — `k` being
the applied count when `steps ≤ 0` or `steps` exceeds that count, and
`steps` itself otherwise — and on success rolls them back in exactly that
order. -/
theorem down_selection_order (fail : String → Bool) (db : DB)
    (migs : List Migration) (steps : Int) (l : List MigrationStatus)
    (hnd : (db.ledger.map MigrationStatus.id).Nodup)
    (hl : l.Perm db.ledger) (hs : List.Sorted rowDesc l) :
    buildRollbackList (getAppliedMigrations db) steps =
      l.take (if steps ≤ 0 ∨ (db.ledger.length : Int) < steps
              then db.ledger.length else steps.toNat)
    ∧ ((Down fail db migs steps).2 = .ok () →
        (Down fail db migs steps).1.log = db.log ++
          (l.take (if steps ≤ 0 ∨ (db.ledger.length : Int) < steps
                   then db.ledger.length else steps.toNat)).flatMap
            (rowDownStatements (buildMigrationMap migs))) := by
  have hsorteq : List.insertionSort rowDesc (getAppliedMigrations db) = l := by
    refine sorted_row_unique
      ((List.perm_insertionSort rowDesc _).trans
        ((getAppliedMigrations_perm db).trans hl.symm))
      (List.sorted_insertionSort rowDesc _) hs ?_
    exact (((List.perm_insertionSort rowDesc _).trans
      (getAppliedMigrations_perm db)).map MigrationStatus.id).nodup_iff.mpr hnd
  have hlen : (getAppliedMigrations db).length = db.ledger.length :=
    (getAppliedMigrations_perm db).length_eq
  have hbuild : buildRollbackList (getAppliedMigrations db) steps =
      l.take (if steps ≤ 0 ∨ (db.ledger.length : Int) < steps
              then db.ledger.length else steps.toNat) := by
    unfold buildRollbackList
    rw [hsorteq, hlen]
  refine ⟨hbuild, fun h => ?_⟩
  rw [down_ok_log h, hbuild]

/-- Three applied rows over two batches. -/
def dbThree : DB := ⟨[⟨"001", "a", 1⟩, ⟨"002", "b", 1⟩, ⟨"003", "c", 2⟩], [], 0⟩

/-- The rows of `dbThree` in reverse apply order. -/
def rollPerm : List MigrationStatus :=
  [⟨"003", "c", 2⟩, ⟨"002", "b", 1⟩, ⟨"001", "a", 1⟩]

theorem down_selection_order_witness :
    buildRollbackList (getAppliedMigrations dbThree) 2 =
      rollPerm.take (if (2 : Int) ≤ 0 ∨ (dbThree.ledger.length : Int) < 2
                     then dbThree.ledger.length else (2 : Int).toNat) :=
  (down_selection_order failNone dbThree [] 2 rollPerm
    (by decide) (by decide) (by decide)).1

/-- Claim C6: `Down` on an empty ledger fails with the dedicated
"nothing to roll back" error kind and returns the store untouched — in
particular no transaction is opened. -/
theorem down_empty_ledger (fail : String → Bool) (db : DB)
    (migs : List Migration) (steps : Int) (h : db.ledger = []) :
    Down fail db migs steps = (db, .error .noMigrationsToRollback) := by
  have happ : getAppliedMigrations db = [] := by
    rw [getAppliedMigrations, h]
    rfl
  simp [Down, happ]

theorem down_empty_ledger_witness :
    Down failNone db0 [migA] 3 = (db0, .error .noMigrationsToRollback) :=
  down_empty_ledger failNone db0 [migA] 3 rfl

/-- Claim C7: a selected ledger row whose id no longer resolves to a
registered migration executes no reverse statement, still has its ledger
row deleted, and is not an error — a whole `Down` over unresolvable rows
(empty registered set) still succeeds. -/
theorem rollback_unregistered (fail : String → Bool) (tx : DB)
    (row : MigrationStatus) (mm : String → Option Migration)
    (h : mm row.id = none) :
    rollbackSingleMigration fail tx row mm =
      .ok { tx with ledger := tx.ledger.filter (fun r => !(r.id == row.id)) }
    ∧ ∀ (fail2 : String → Bool) (db : DB) (steps : Int),
        db.ledger ≠ [] → (Down fail2 db [] steps).2 = .ok () := by
  constructor
  · unfold rollbackSingleMigration
    rw [h]
  · intro fail2 db steps hne
    have hrun : ∀ (rows : List MigrationStatus) (tx0 : DB),
        ∃ tx2, runRollback fail2 (buildMigrationMap []) tx0 rows = .ok tx2 := by
      intro rows
      induction rows with
      | nil => intro tx0; exact ⟨tx0, rfl⟩
      | cons r rs ih =>
        intro tx0
        obtain ⟨tx2, h2⟩ := ih { tx0 with
          ledger := tx0.ledger.filter (fun x => !(x.id == r.id)) }
        refine ⟨tx2, ?_⟩
        rw [runRollback]
        have hstep : rollbackSingleMigration fail2 tx0 r (buildMigrationMap []) =
            .ok { tx0 with ledger := tx0.ledger.filter (fun x => !(x.id == r.id)) } := rfl
        simp only [hstep]
        exact h2
    have happly : ¬ (getAppliedMigrations db).isEmpty = true := by
      rw [List.isEmpty_iff]
      intro hh
      have hperm := getAppliedMigrations_perm db
      rw [hh] at hperm
      exact hne hperm.symm.eq_nil
    unfold Down
    rw [if_neg happly]
    unfold executeRollback
    obtain ⟨tx2, h2⟩ := hrun (buildRollbackList (getAppliedMigrations db) steps)
      { db with txCount := db.txCount + 1 }
    simp only [h2]

/-- A ledger row whose migration is no longer registered. -/
def rowGhost : MigrationStatus := ⟨"999", "ghost", 1⟩

def dbGhost : DB := ⟨[rowGhost], [], 0⟩

theorem rollback_unregistered_witness :
    rollbackSingleMigration failNone dbGhost rowGhost (buildMigrationMap [migA]) =
      .ok { dbGhost with
            ledger := dbGhost.ledger.filter (fun r => !(r.id == rowGhost.id)) }
    ∧ (Down failNone dbGhost [] 0).2 = .ok () :=
  ⟨(rollback_unregistered failNone dbGhost rowGhost (buildMigrationMap [migA]) rfl).1,
   (rollback_unregistered failNone dbGhost rowGhost (buildMigrationMap [migA]) rfl).2
     failNone dbGhost 0 (by decide)⟩

/-- Claim C8: statement filtering is asymmetric — on success the forward
pass executes exactly the entries that do not trim to empty, while the
reverse pass executes exactly the entries that neither trim to empty nor
start (after trimming) with the comment marker `"--"`. -/
theorem statement_filtering (fail : String → Bool) (tx : DB) (mig : Migration)
    (batch : Int) (row : MigrationStatus) (mm : String → Option Migration) :
    (∀ tx2, executeMigrationUp fail tx mig batch = .ok tx2 →
        tx2.log = tx.log ++ mig.up.filter (fun q => !(TrimSpace q == "")))
    ∧ (∀ tx2 mig2, mm row.id = some mig2 →
        rollbackSingleMigration fail tx row mm = .ok tx2 →
        tx2.log = tx.log ++ mig2.down.filter
          (fun q => !(TrimSpace q == "" || HasPrefixStr (TrimSpace q) "--"))) := by
  constructor
  · intro tx2 h
    rw [executeMigrationUp_ok h]
  · intro tx2 mig2 hmm h
    rw [rollbackSingleMigration_ok h]
    simp [rowDownStatements, hmm]

/-- A migration whose statement lists both contain a comment entry and a
whitespace-only entry: the comment is executed forward but skipped in
reverse. -/
def migMix : Migration :=
  ⟨"010", "mix", ["-- up comment", "  ", "REAL UP"],
   ["-- down comment", " ", "REAL DOWN"]⟩

def rowMix : MigrationStatus := ⟨"010", "mix", 1⟩

theorem statement_filtering_witness :
    (⟨[mkRow migMix 1], ["-- up comment", "REAL UP"], 0⟩ : DB).log
      = db0.log ++ migMix.up.filter (fun q => !(TrimSpace q == ""))
    ∧ (⟨[], ["REAL DOWN"], 0⟩ : DB).log
      = db0.log ++ migMix.down.filter
          (fun q => !(TrimSpace q == "" || HasPrefixStr (TrimSpace q) "--")) :=
  ⟨(statement_filtering failNone db0 migMix 1 rowMix (buildMigrationMap [migMix])).1
     _ rfl,
   (statement_filtering failNone db0 migMix 1 rowMix (buildMigrationMap [migMix])).2
     _ migMix rfl rfl⟩

/-! ### Builder claims -/

/-- `fieldsAux` yields no field exactly when the remaining input is all
whitespace and no word is pending. -/
theorem fieldsAux_eq_nil_iff (cs : List Char) : ∀ (cur : List Char),
    fieldsAux cs cur = [] ↔ cur = [] ∧ ∀ c ∈ cs, c.isWhitespace = true := by
  induction cs with
  | nil =>
    intro cur
    rw [fieldsAux]
    by_cases hc : cur.isEmpty = true
    · rw [if_pos hc]
      simp [List.isEmpty_iff.mp hc]
    · rw [if_neg hc]
      have hne : cur ≠ [] := fun he => hc (by simp [he])
      simp [hne]
  | cons c cs ih =>
    intro cur
    rw [fieldsAux]
    by_cases hw : c.isWhitespace = true
    · rw [if_pos hw]
      by_cases hc : cur.isEmpty = true
      · rw [if_pos hc]
        rw [ih []]
        simp [List.isEmpty_iff.mp hc, hw]
      · rw [if_neg hc]
        have hne : cur ≠ [] := fun he => hc (by simp [he])
        simp [hne]
    · rw [if_neg hw]
      rw [ih (c :: cur)]
      simp [hw]

/-- Go `strings.Fields` returns no field exactly on empty or
whitespace-only input. -/
theorem fields_eq_nil_iff (s : String) :
    fields s = [] ↔ ∀ c ∈ s.toList, c.isWhitespace = true := by
  unfold fields
  rw [List.map_eq_nil_iff, fieldsAux_eq_nil_iff]
  simp

/-- Claim C10: `AddColumn` is total exactly when the column definition has
at least one non-whitespace character — on empty or whitespace-only input
the first-field access panics (`none` here); otherwise the call succeeds
and derives the reverse statement's column name as the first
whitespace-separated field of the definition. -/
theorem addColumn_totality (b : MigrationBuilder) (tableName columnDef : String) :
    (MigrationBuilder.AddColumn b tableName columnDef = none ↔
      ∀ c ∈ columnDef.toList, c.isWhitespace = true)
    ∧ (∀ w ws, fields columnDef = w :: ws →
        ∃ b2, MigrationBuilder.AddColumn b tableName columnDef = some b2
          ∧ b2.migration.downQueries =
              ("ALTER TABLE " ++ tableName ++ " DROP COLUMN " ++ w ++ ";")
                :: b.migration.downQueries
          ∧ b2.migration.upQueries = b.migration.upQueries
              ++ ["ALTER TABLE " ++ tableName ++ " ADD COLUMN " ++ columnDef ++ ";"]) := by
  constructor
  · rw [← fields_eq_nil_iff]
    unfold MigrationBuilder.AddColumn
    cases hf : fields columnDef with
    | nil => simp
    | cons w ws => simp
  · intro w ws hf
    unfold MigrationBuilder.AddColumn
    rw [hf]
    exact ⟨_, rfl, rfl, rfl⟩

theorem addColumn_totality_witness :
    MigrationBuilder.AddColumn (CreateMigration "m" "d") "t" "   " = none
    ∧ ∃ b2, MigrationBuilder.AddColumn (CreateMigration "m" "d") "t" "age INT NOT NULL"
          = some b2
        ∧ b2.migration.downQueries =
            ("ALTER TABLE " ++ "t" ++ " DROP COLUMN " ++ "age" ++ ";")
              :: (CreateMigration "m" "d").migration.downQueries
        ∧ b2.migration.upQueries = (CreateMigration "m" "d").migration.upQueries
            ++ ["ALTER TABLE " ++ "t" ++ " ADD COLUMN " ++ "age INT NOT NULL" ++ ";"] :=
  ⟨(addColumn_totality (CreateMigration "m" "d") "t" "   ").1.mpr (by decide),
   (addColumn_totality (CreateMigration "m" "d") "t" "age INT NOT NULL").2
     "age" ["INT", "NOT", "NULL"] rfl⟩

/-- Claim C9, counterexample: `RawUp` appends one forward statement but
prepends nothing to the reverse sequence, so "each listed call prepends
exactly one reverse statement" fails at `RawUp`. -/
theorem builder_rawup_no_reverse :
    ((CreateMigration "m" "d").RawUp "SELECT 1;").migration.downQueries.length
      ≠ (CreateMigration "m" "d").migration.downQueries.length + 1 := by
  decide

/-- Claim C9 (amended): every structural builder call — create/drop table,
add/drop/rename/change column, create/drop index (plain or unique),
add/drop foreign key (auto-named or named), add primary key, add check —
and the two-sided `Raw` escape hatch append exactly one forward statement
and prepend exactly one reverse statement (`AddColumn` provided its column
definition has a first field); the one-sided escape hatches touch only
their own side: `RawUp` appends one forward statement leaving the reverse
sequence unchanged, and `RawDown` prepends one reverse statement leaving
the forward sequence unchanged. -/
theorem builder_shape :
    (∀ b t cols, ∃ u v,
      (MigrationBuilder.CreateTable b t cols).migration.upQueries
          = b.migration.upQueries ++ [u]
        ∧ (MigrationBuilder.CreateTable b t cols).migration.downQueries
          = v :: b.migration.downQueries)
    ∧ (∀ b t, ∃ u v,
      (MigrationBuilder.DropTable b t).migration.upQueries
          = b.migration.upQueries ++ [u]
        ∧ (MigrationBuilder.DropTable b t).migration.downQueries
          = v :: b.migration.downQueries)
    ∧ (∀ b t d w ws, fields d = w :: ws →
      ∃ b2, MigrationBuilder.AddColumn b t d = some b2
        ∧ ∃ u v, b2.migration.upQueries = b.migration.upQueries ++ [u]
          ∧ b2.migration.downQueries = v :: b.migration.downQueries)
    ∧ (∀ b t c, ∃ u v,
      (MigrationBuilder.DropColumn b t c).migration.upQueries
          = b.migration.upQueries ++ [u]
        ∧ (MigrationBuilder.DropColumn b t c).migration.downQueries
          = v :: b.migration.downQueries)
    ∧ (∀ b t o n, ∃ u v,
      (MigrationBuilder.RenameColumn b t o n).migration.upQueries
          = b.migration.upQueries ++ [u]
        ∧ (MigrationBuilder.RenameColumn b t o n).migration.downQueries
          = v :: b.migration.downQueries)
    ∧ (∀ b t c d, ∃ u v,
      (MigrationBuilder.ChangeColumn b t c d).migration.upQueries
          = b.migration.upQueries ++ [u]
        ∧ (MigrationBuilder.ChangeColumn b t c d).migration.downQueries
          = v :: b.migration.downQueries)
    ∧ (∀ b i t cols, ∃ u v,
      (MigrationBuilder.CreateIndex b i t cols).migration.upQueries
          = b.migration.upQueries ++ [u]
        ∧ (MigrationBuilder.CreateIndex b i t cols).migration.downQueries
          = v :: b.migration.downQueries)
    ∧ (∀ b i t cols, ∃ u v,
      (MigrationBuilder.CreateUniqueIndex b i t cols).migration.upQueries
          = b.migration.upQueries ++ [u]
        ∧ (MigrationBuilder.CreateUniqueIndex b i t cols).migration.downQueries
          = v :: b.migration.downQueries)
    ∧ (∀ b i, ∃ u v,
      (MigrationBuilder.DropIndex b i).migration.upQueries
          = b.migration.upQueries ++ [u]
        ∧ (MigrationBuilder.DropIndex b i).migration.downQueries
          = v :: b.migration.downQueries)
    ∧ (∀ b t c rt rc, ∃ u v,
      (MigrationBuilder.AddForeignKey b t c rt rc).migration.upQueries
          = b.migration.upQueries ++ [u]
        ∧ (MigrationBuilder.AddForeignKey b t c rt rc).migration.downQueries
          = v :: b.migration.downQueries)
    ∧ (∀ b t cn c rt rc, ∃ u v,
      (MigrationBuilder.AddForeignKeyWithName b t cn c rt rc).migration.upQueries
          = b.migration.upQueries ++ [u]
        ∧ (MigrationBuilder.AddForeignKeyWithName b t cn c rt rc).migration.downQueries
          = v :: b.migration.downQueries)
    ∧ (∀ b t cn, ∃ u v,
      (MigrationBuilder.DropForeignKey b t cn).migration.upQueries
          = b.migration.upQueries ++ [u]
        ∧ (MigrationBuilder.DropForeignKey b t cn).migration.downQueries
          = v :: b.migration.downQueries)
    ∧ (∀ b t cn cols, ∃ u v,
      (MigrationBuilder.AddPrimaryKey b t cn cols).migration.upQueries
          = b.migration.upQueries ++ [u]
        ∧ (MigrationBuilder.AddPrimaryKey b t cn cols).migration.downQueries
          = v :: b.migration.downQueries)
    ∧ (∀ b t cn cond, ∃ u v,
      (MigrationBuilder.AddCheck b t cn cond).migration.upQueries
          = b.migration.upQueries ++ [u]
        ∧ (MigrationBuilder.AddCheck b t cn cond).migration.downQueries
          = v :: b.migration.downQueries)
    ∧ (∀ b q,
      (MigrationBuilder.RawUp b q).migration.upQueries
          = b.migration.upQueries ++ [q]
        ∧ (MigrationBuilder.RawUp b q).migration.downQueries
          = b.migration.downQueries)
    ∧ (∀ b q,
      (MigrationBuilder.RawDown b q).migration.upQueries
          = b.migration.upQueries
        ∧ (MigrationBuilder.RawDown b q).migration.downQueries
          = q :: b.migration.downQueries)
    ∧ (∀ b uq dq,
      (MigrationBuilder.Raw b uq dq).migration.upQueries
          = b.migration.upQueries ++ [uq]
        ∧ (MigrationBuilder.Raw b uq dq).migration.downQueries
          = dq :: b.migration.downQueries) := by
  refine ⟨?_, ?_, ?_, ?_, ?_, ?_, ?_, ?_, ?_, ?_, ?_, ?_, ?_, ?_, ?_, ?_, ?_⟩
  · exact fun b t cols => ⟨_, _, rfl, rfl⟩
  · exact fun b t => ⟨_, _, rfl, rfl⟩
  · intro b t d w ws hf
    unfold MigrationBuilder.AddColumn
    rw [hf]
    exact ⟨_, rfl, _, _, rfl, rfl⟩
  · exact fun b t c => ⟨_, _, rfl, rfl⟩
  · exact fun b t o n => ⟨_, _, rfl, rfl⟩
  · exact fun b t c d => ⟨_, _, rfl, rfl⟩
  · exact fun b i t cols => ⟨_, _, rfl, rfl⟩
  · exact fun b i t cols => ⟨_, _, rfl, rfl⟩
  · exact fun b i => ⟨_, _, rfl, rfl⟩
  · exact fun b t c rt rc => ⟨_, _, rfl, rfl⟩
  · exact fun b t cn c rt rc => ⟨_, _, rfl, rfl⟩
  · exact fun b t cn => ⟨_, _, rfl, rfl⟩
  · exact fun b t cn cols => ⟨_, _, rfl, rfl⟩
  · exact fun b t cn cond => ⟨_, _, rfl, rfl⟩
  · exact fun b q => ⟨rfl, rfl⟩
  · exact fun b q => ⟨rfl, rfl⟩
  · exact fun b uq dq => ⟨rfl, rfl⟩

theorem builder_shape_witness :
    ∃ b2, MigrationBuilder.AddColumn (CreateMigration "m" "d") "t" "age INT" = some b2
      ∧ ∃ u v, b2.migration.upQueries
            = (CreateMigration "m" "d").migration.upQueries ++ [u]
          ∧ b2.migration.downQueries
            = v :: (CreateMigration "m" "d").migration.downQueries :=
  builder_shape.2.2.1 (CreateMigration "m" "d") "t" "age INT" "age" ["INT"] rfl

end Migrator
